import Mathlib

/-!
# Verification of the docsign placement and compositing core

Shallow embedding of `src/backend/signature_detector.py`, `src/backend/pdf_signer.py`
and the signing endpoints of `src/backend/app.py`.

Modelling conventions:
* Python floats become exact rationals `ℚ`; the only non-rational operation in the
  source, `(...) ** 0.5` inside the candidate scoring of
  `find_blank_space_near_keyword`, is abstracted as a function parameter
  `sqrtFn : ℚ → ℚ` (the machine square root); every theorem quantifies over it.
* `random.uniform(lo, hi)` is modelled by an oracle draw `r ∈ [0,1]` supplied as an
  argument, the sampled value being `lo + r * (hi - lo)`.
* `datetime.now()` is an oracle argument of type `Time`; `hashlib.sha256` and the
  decryption of the signature blob are abstract function arguments.
* A pdfplumber page is a record of the data the detector reads from it
  (dimensions, extracted text, extracted words, line and rect primitives).
* Python `int()` truncates toward zero (`pyInt`), and `range` is reproduced by
  `pyRangeUp` / `pyRangeDown`.
-/

set_option maxRecDepth 1000000

namespace DocSign

/-- Python `int()` on a rational: truncation toward zero. -/
def pyInt (q : ℚ) : ℤ := if 0 ≤ q then ⌊q⌋ else ⌈q⌉

/-- Python `range(start, stop, step)` for `step > 0`. -/
def pyRangeUp (start stop step : ℤ) : List ℤ :=
  (List.range (if start < stop then (stop - start - 1).toNat / step.toNat + 1 else 0)).map
    (fun i => start + step * (i : ℤ))

/-- Python `range(start, stop, -step)` for `step > 0`. -/
def pyRangeDown (start stop step : ℤ) : List ℤ :=
  (List.range (if stop < start then (start - stop - 1).toNat / step.toNat + 1 else 0)).map
    (fun i => start - step * (i : ℤ))

/-- Does `l` begin with the character sequence `p`? -/
def beginsWith : List Char → List Char → Bool
  | [], _ => true
  | _ :: _, [] => false
  | c :: cs, d :: ds => c = d && beginsWith cs ds

/-- Does `l` contain the character sequence `p` (Python `p in s`)? -/
def containsSeq (p : List Char) : List Char → Bool
  | [] => beginsWith p []
  | c :: rest => beginsWith p (c :: rest) || containsSeq p rest

/-- `\w` of the `re` module, for the ASCII inputs we model. -/
def isWordChar (c : Char) : Bool := c.isAlphanum || c = '_'

/-- The characters of the anchor keyword `"signature"`. -/
def sigChars : List Char := ['s', 'i', 'g', 'n', 'a', 't', 'u', 'r', 'e']

/-- `l` begins with `signature` followed by a non-word character or the end:
the right half of the `\bsignature\b` match. -/
def sigBoundaryAt (l : List Char) : Bool :=
  beginsWith sigChars l &&
    (match l.drop 9 with
     | [] => true
     | c :: _ => !isWordChar c)

/-- Scan for `\bsignature\b`; the Boolean argument records whether the previous
character was a word character (no match may start right after one). -/
def searchSigAux : Bool → List Char → Bool
  | _, [] => false
  | prevW, c :: rest => (!prevW && sigBoundaryAt (c :: rest)) || searchSigAux (isWordChar c) rest

/-- `SIGNATURE_PATTERN.search(text)` of `signature_detector.py`: a case-insensitive
word-boundary search for `signature`. -/
def pageMatchesKeyword (s : String) : Bool :=
  searchSigAux false (s.toList.map Char.toLower)

/-- `'signature' in word['text'].lower()`: plain substring test. -/
def wordHasKeyword (s : String) : Bool :=
  containsSeq sigChars (s.toList.map Char.toLower)

/-- A text token as returned by `page.extract_words()`. -/
structure Word where
  text : String
  x0 : ℚ
  top : ℚ
  x1 : ℚ
  bottom : ℚ
  deriving DecidableEq, Repr

/-- A line or rect primitive: the detector reads the same four keys from both. -/
structure Prim where
  x0 : ℚ
  top : ℚ
  x1 : ℚ
  bottom : ℚ
  deriving DecidableEq, Repr

/-- A pdfplumber page, reduced to the data the detector reads from it. -/
structure Page where
  width : ℚ
  height : ℚ
  text : String
  words : List Word
  lines : List Prim
  rects : List Prim
  deriving DecidableEq, Repr

/-- An obstacle rectangle, already expanded by the padding margin. -/
structure ORect where
  x0 : ℚ
  y0 : ℚ
  x1 : ℚ
  y1 : ℚ
  deriving DecidableEq, Repr

/-- `SIG_WIDTH` of `signature_detector.py`. -/
def SIG_WIDTH : ℚ := 120

/-- `SIG_HEIGHT` of `signature_detector.py`. -/
def SIG_HEIGHT : ℚ := 40

/-- `PADDING` of `signature_detector.py`. -/
def PADDING : ℚ := 10

/-- `TEXT_HEIGHT` of `signature_detector.py`. -/
def TEXT_HEIGHT : ℚ := 30

/-- The occupied-rectangle list both blank-space searches build: every word,
line and rect, each expanded outward by `PADDING`. -/
def occupiedOf (words : List Word) (lines rects : List Prim) : List ORect :=
  words.map (fun w => ⟨w.x0 - PADDING, w.top - PADDING, w.x1 + PADDING, w.bottom + PADDING⟩)
    ++ lines.map (fun l => ⟨l.x0 - PADDING, l.top - PADDING, l.x1 + PADDING, l.bottom + PADDING⟩)
    ++ rects.map (fun r => ⟨r.x0 - PADDING, r.top - PADDING, r.x1 + PADDING, r.bottom + PADDING⟩)

/-- `is_in_center_area` of `signature_detector.py`. -/
def is_in_center_area (x y pageWidth pageHeight sigWidth sigHeight : ℚ) : Bool :=
  let sigCenterX := x + sigWidth / 2
  let sigCenterY := y + sigHeight / 2
  (decide (pageWidth * 0.3 < sigCenterX) && decide (sigCenterX < pageWidth * 0.7)) &&
  (decide (pageHeight * 0.25 < sigCenterY) && decide (sigCenterY < pageHeight * 0.75))

/-- The inner `is_area_clear` helper shared by both blank-space searches. -/
def is_area_clear (occ : List ORect) (pageWidth pageHeight x y width height : ℚ) : Bool :=
  if x < PADDING ∨ y < PADDING then false
  else if x + width > pageWidth - PADDING ∨ y + height > pageHeight - PADDING then false
  else occ.all fun r =>
    decide (x + width < r.x0) || decide (x > r.x1) ||
    decide (y + height < r.y0) || decide (y > r.y1)

/-- One raster-scan stage of `find_blank_space_on_page`: outer loop over `ys`,
inner loop over `xs`, returning the first candidate accepted by `ok`. -/
def scanStage (ys xs : List ℤ) (ok : ℚ → ℚ → Bool) : Option (ℚ × ℚ) :=
  ys.findSome? fun y =>
    (xs.find? fun x => ok (x : ℚ) (y : ℚ)).map fun x => ((x : ℚ), (y : ℚ))

/-- `find_blank_space_on_page` of `signature_detector.py`: raster scan in four
priority bands, then the whole page excluding the center, then even the center. -/
def find_blank_space_on_page (page : Page) (sigWidth sigHeight : ℚ) (avoidCenter : Bool) :
    Option (ℚ × ℚ) :=
  let pw := page.width
  let ph := page.height
  let occ := occupiedOf page.words page.lines page.rects
  let totalHeight := sigHeight + TEXT_HEIGHT
  let clear := fun x y => is_area_clear occ pw ph x y sigWidth totalHeight
  let okAC := fun x y =>
    clear x y && !(avoidCenter && is_in_center_area x y pw ph sigWidth sigHeight)
  let okNC := fun x y => clear x y && !(is_in_center_area x y pw ph sigWidth sigHeight)
  let ysBottom := pyRangeDown (pyInt (ph - totalHeight - PADDING)) (pyInt (ph * 0.6)) 15
  let s1 := scanStage ysBottom (pyRangeUp 10 (pyInt (pw * 0.5)) 15) okAC
  match s1 with
  | some p => some p
  | none =>
  let s2 := scanStage ysBottom (pyRangeUp (pyInt (pw * 0.5)) (pyInt (pw - sigWidth - PADDING)) 15) okAC
  match s2 with
  | some p => some p
  | none =>
  let ysMid := pyRangeDown (pyInt (ph * 0.6)) (pyInt (ph * 0.3)) 15
  let s3 := scanStage ysMid (pyRangeUp 10 (pyInt (pw * 0.3)) 15) okAC
  match s3 with
  | some p => some p
  | none =>
  let s4 := scanStage ysMid (pyRangeUp (pyInt (pw * 0.7)) (pyInt (pw - sigWidth - PADDING)) 15) okAC
  match s4 with
  | some p => some p
  | none =>
  let ysAll := pyRangeDown (pyInt (ph - totalHeight - PADDING)) 10 15
  let xsAll := pyRangeUp 10 (pyInt (pw - sigWidth - PADDING)) 15
  let s5 := scanStage ysAll xsAll okNC
  match s5 with
  | some p => some p
  | none => scanStage ysAll xsAll clear

/-- The candidate list built by `find_blank_space_near_keyword`: the four
directional candidates, then the below-left, below-right and above grids. -/
def keywordCandidates (kw : Word) (pw ph sigWidth sigHeight totalHeight : ℚ) :
    List (ℚ × ℚ) :=
  let kx := kw.x0
  let ky := kw.top
  let kb := kw.bottom
  let kr := kw.x1
  [(kx, ky - totalHeight - 5), (kr + 10, ky - sigHeight / 2),
   (kx, kb + 5), (kx - sigWidth - 10, ky - sigHeight / 2)]
  ++ ((pyRangeUp 0 151 15).map fun dy =>
        (pyRangeUp (-150) 0 15).filterMap fun dx =>
          let x := kx + (dx : ℚ)
          let y := ky + (dy : ℚ)
          if PADDING ≤ x ∧ y + totalHeight ≤ ph - PADDING then some (x, y) else none).flatten
  ++ ((pyRangeUp 0 151 15).map fun dy =>
        (pyRangeUp 0 151 15).filterMap fun dx =>
          let x := kx + (dx : ℚ)
          let y := ky + (dy : ℚ)
          if x + sigWidth ≤ pw - PADDING ∧ y + totalHeight ≤ ph - PADDING then some (x, y)
          else none).flatten
  ++ ((pyRangeUp (-150) 0 15).map fun dy =>
        (pyRangeUp (-150) 151 15).map fun dx =>
          (kx + (dx : ℚ), ky + (dy : ℚ))).flatten

/-- `position_score` of `find_blank_space_near_keyword`; `sqrtFn` stands for the
machine square root used in `distance_from_keyword`. -/
def position_score (sqrtFn : ℚ → ℚ) (kw : Word) (pw ph sigWidth sigHeight x y : ℚ) : ℚ :=
  let centerX := x + sigWidth / 2
  let centerY := y + sigHeight / 2
  let dist := sqrtFn ((centerX - kw.x0) ^ 2 + (centerY - kw.top) ^ 2)
  let s := dist
  let s := if y > ph * 0.6 then s - 200 else if y > ph * 0.5 then s - 100 else s
  let s := if x < pw * 0.5 then s - 50 else s
  if is_in_center_area x y pw ph sigWidth sigHeight then s + 500 else s

/-- The best-scoring pass over the candidates: first valid candidate wins against
the initial infinite score, a later one only on a strictly smaller score. -/
def pickBest (ok : ℚ × ℚ → Bool) (score : ℚ × ℚ → ℚ) (cands : List (ℚ × ℚ)) :
    Option (ℚ × ℚ) :=
  (cands.foldl (fun best c =>
    if ok c then
      match best with
      | none => some (c, score c)
      | some (b, s) => if score c < s then some (c, score c) else some (b, s)
    else best) none).map Prod.fst

/-- `find_blank_space_near_keyword` of `signature_detector.py`.  The source's
final fallback always produces a dict, so the function is total. -/
def find_blank_space_near_keyword (sqrtFn : ℚ → ℚ) (page : Page) (kw : Word)
    (allWords : List Word) (sigWidth sigHeight : ℚ) : ℚ × ℚ :=
  let pw := page.width
  let ph := page.height
  let occ := occupiedOf allWords page.lines page.rects
  let totalHeight := sigHeight + TEXT_HEIGHT
  let clear := fun (c : ℚ × ℚ) => is_area_clear occ pw ph c.1 c.2 sigWidth totalHeight
  let cands := keywordCandidates kw pw ph sigWidth sigHeight totalHeight
  let score := fun (c : ℚ × ℚ) => position_score sqrtFn kw pw ph sigWidth sigHeight c.1 c.2
  let pass1 := pickBest
    (fun c => clear c && !is_in_center_area c.1 c.2 pw ph sigWidth sigHeight) score cands
  let best := match pass1 with
    | some b => some b
    | none => pickBest clear score cands
  match best with
  | some b => b
  | none =>
    let fy := kw.top - totalHeight - 5
    let fy := if fy < PADDING then kw.bottom + 5 else fy
    (max PADDING (min kw.x0 (pw - sigWidth - PADDING)),
     max PADDING (min fy (ph - totalHeight - PADDING)))

/-- One placement of the detection response. -/
structure Position where
  page : ℕ
  x : ℚ
  y : ℚ
  width : ℚ
  height : ℚ
  confidence : String
  method : String
  keyword : Option String
  deriving DecidableEq, Repr

/-- The detection response shape shared by `detect_all_signature_positions` and
`detect_f2f_signature_position`. -/
structure DetectResult where
  found : Bool
  positions : List Position
  total_pages : ℕ
  deriving DecidableEq, Repr

/-- The in-page clamping `detect_all_signature_positions` applies to the
anchored blank-space result (lines 424-433 of `signature_detector.py`). -/
def clampDetected (pageWidth pageHeight x y : ℚ) : ℚ × ℚ :=
  let x := if x + SIG_WIDTH > pageWidth then pageWidth - SIG_WIDTH - 20 else x
  let x := if x < 10 then 10 else x
  let y := if y < 10 then 10 else y
  let y := if y + (SIG_HEIGHT + TEXT_HEIGHT) > pageHeight then
    pageHeight - (SIG_HEIGHT + TEXT_HEIGHT) - 20 else y
  (x, y)

/-- The contribution of page `idx` to the generic detection loop: `none` when the
page text has no `\bsignature\b` match or no word contains the keyword,
otherwise the clamped anchored placement for the first such word. -/
def pagePlacement (sqrtFn : ℚ → ℚ) (doc : List Page) (idx : ℕ) : Option Position :=
  match doc.get? idx with
  | none => none
  | some page =>
    if pageMatchesKeyword page.text then
      match page.words.find? (fun w => wordHasKeyword w.text) with
      | none => none
      | some w =>
        let bp := find_blank_space_near_keyword sqrtFn page w page.words SIG_WIDTH SIG_HEIGHT
        let c := clampDetected page.width page.height bp.1 bp.2
        some ⟨idx, c.1, c.2, SIG_WIDTH, SIG_HEIGHT, "high", "pdfplumber_blank_space",
          some "signature"⟩
    else none

/-- The `sorted(positions, key=lambda p: p['page'])` step. -/
def sortByPage (l : List Position) : List Position :=
  l.insertionSort fun a b => a.page ≤ b.page

/-- The page-scan loop of `detect_all_signature_positions`: pages are visited
from last to first, each contributing at most one placement. -/
def collectAnchored (sqrtFn : ℚ → ℚ) (doc : List Page) : List Position :=
  ((List.range doc.length).reverse).filterMap (pagePlacement sqrtFn doc)

/-- The last-page fallback of `detect_all_signature_positions`, used when no
page matched the anchor pattern. -/
def fallbackPositions (doc : List Page) : List Position :=
  match doc.getLast? with
  | some lastPage =>
    match find_blank_space_on_page lastPage SIG_WIDTH SIG_HEIGHT true with
    | some bp =>
      [⟨doc.length - 1, bp.1, bp.2, SIG_WIDTH, SIG_HEIGHT, "low", "blank_space_fallback",
        none⟩]
    | none => []
  | none => []

/-- `detect_all_signature_positions` of `signature_detector.py`: scan pages from
last to first, at most one anchored placement per page; if none, fall back to
blank space on the last page. -/
def detect_all_signature_positions (sqrtFn : ℚ → ℚ) (doc : List Page) : DetectResult :=
  if doc.length = 0 then ⟨false, [], 0⟩
  else
    let positions := collectAnchored sqrtFn doc
    let positions := if positions = [] then fallbackPositions doc else positions
    if positions = [] then ⟨false, [], doc.length⟩
    else ⟨true, sortByPage positions, doc.length⟩

/-- The no-free-space F2F fallback of `detect_f2f_signature_position`: a point
drawn uniformly from a bottom-left window; `r1 r2 ∈ [0,1]` are the two
`random.uniform` draws. -/
def f2fFallbackXY (pw ph r1 r2 : ℚ) : ℚ × ℚ :=
  let f2fBoxWidth : ℚ := 220
  let f2fBoxHeight : ℚ := 120
  let xMin := PADDING + 10
  let xMax := max (xMin + 20) (pw / 2 - f2fBoxWidth - PADDING)
  let yMin := ph * 0.6
  let yMax := ph - f2fBoxHeight - PADDING - 30
  let xMax := if xMax ≤ xMin then xMin + 50 else xMax
  let yMax := if yMax ≤ yMin then yMin + 50 else yMax
  (xMin + r1 * (xMax - xMin), yMin + r2 * (yMax - yMin))

/-- `detect_f2f_signature_position` of `signature_detector.py`.  The two oracle
draws `r1 r2 ∈ [0,1]` model the `random.uniform` calls of the no-free-space
fallback: `uniform(lo, hi) = lo + r * (hi - lo)`. -/
def detect_f2f_signature_position (doc : List Page) (r1 r2 : ℚ) : DetectResult :=
  let numPages := doc.length
  if numPages = 0 then ⟨false, [], 0⟩
  else match doc.getLast? with
  | none => ⟨false, [], numPages⟩
  | some lastPage =>
    let pw := lastPage.width
    let ph := lastPage.height
    let r : ℚ × ℚ × String × String :=
      match find_blank_space_on_page lastPage SIG_WIDTH SIG_HEIGHT true with
      | some bp => (bp.1, bp.2, "f2f_last_page_blank_space", "high")
      | none =>
        ((f2fFallbackXY pw ph r1 r2).1, (f2fFallbackXY pw ph r1 r2).2,
         "f2f_fallback_bottom_left_random", "medium")
    ⟨true,
     [⟨numPages - 1, r.1, r.2.1, SIG_WIDTH, SIG_HEIGHT, r.2.2.2, r.2.2.1, none⟩],
     numPages⟩

/-! ## `pdf_signer.py` -/

/-- An abstract clock value; `datetime.now()` readings are of this type and the
attestation text renders the reading it was given. -/
abbrev Time := ℕ

/-- The decoded signature raster (`PIL.Image.open` of the PNG bytes); merging
only consults its intrinsic dimensions. -/
structure SigImage where
  width : ℚ
  height : ℚ
  deriving DecidableEq, Repr

/-- A position dict handed to the signer; any key may be absent
(`position.get(key, default)`). -/
structure MergePos where
  page : Option ℕ
  x : Option ℚ
  y : Option ℚ
  width : Option ℚ
  height : Option ℚ
  deriving DecidableEq, Repr

/-- The rendered overlay for one signature: the geometry it draws at, the
attestation data its text lines render (`ts` is the `datetime.now()` reading the
date line formats), and the F2F audit-box extras. -/
structure Overlay where
  pageWidth : ℚ
  pageHeight : ℚ
  x : ℚ
  y : ℚ
  sigWidth : ℚ
  sigHeight : ℚ
  signer : Option String
  ts : Time
  docId : Option String
  ip : Option String
  f2fBox : Bool
  deriving DecidableEq, Repr

/-- One content layer of a PDF page: pre-existing base content, or a merged
signature overlay. -/
inductive Layer where
  | base (id : ℕ)
  | sig (ov : Overlay)
  deriving DecidableEq, Repr

/-- A PyPDF2 page: dimensions plus a stack of content layers.
`merge_page(overlay)` stamps the overlay on top, leaving existing layers as
they are. -/
structure PdfPage where
  width : ℚ
  height : ℚ
  content : List Layer
  deriving DecidableEq, Repr

/-- A parsed PDF document: pages plus optional metadata. -/
structure PdfDoc where
  pages : List PdfPage
  metadata : Option String
  deriving DecidableEq, Repr

/-- `page.merge_page(overlay_reader.pages[0])`. -/
def mergePage (p : PdfPage) (ov : Overlay) : PdfPage :=
  { p with content := p.content ++ [Layer.sig ov] }

/-- The writer loop `for i, page in enumerate(reader.pages): if i == page_num:
page.merge_page(...); writer.add_page(page)` starting at index `i`. -/
def mergeLoop (ov : Overlay) (pageNum : ℕ) : ℕ → List PdfPage → List PdfPage
  | _, [] => []
  | i, p :: ps => (if i = pageNum then mergePage p ov else p) :: mergeLoop ov pageNum (i + 1) ps

/-- `add_signature_to_pdf` of `pdf_signer.py`: aspect-preserving scaling,
top-left to bottom-left conversion, clamping, then a single-page merge.
`now` is the `datetime.now()` reading taken inside the function. -/
def add_signature_to_pdf (doc : PdfDoc) (sigImage : SigImage) (position : MergePos)
    (signerName : Option String) (now : Time) : Except String PdfDoc :=
  let pageNum := position.page.getD 0
  match doc.pages.get? pageNum with
  | none => .error "Page does not exist"
  | some targetPage =>
    let pageWidth := targetPage.width
    let pageHeight := targetPage.height
    let sigWidth := position.width.getD sigImage.width
    let sigHeight := position.height.getD sigImage.height
    let scaled :=
      if sigWidth ≠ sigImage.width ∨ sigHeight ≠ sigImage.height then
        let aspect := sigImage.width / sigImage.height
        if sigWidth / sigHeight > aspect then (sigHeight * aspect, sigHeight)
        else (sigWidth, sigWidth / aspect)
      else (sigWidth, sigHeight)
    let sigWidth := scaled.1
    let sigHeight := scaled.2
    let textHeight : ℚ := if signerName.isSome then 30 else 0
    let x := position.x.getD 100
    let yFromTop := position.y.getD 100
    let y := pageHeight - yFromTop - sigHeight
    let x := max 0 (min x (pageWidth - sigWidth))
    let y := max textHeight (min y (pageHeight - sigHeight))
    let ov : Overlay :=
      ⟨pageWidth, pageHeight, x, y, sigWidth, sigHeight, signerName, now, none, none, false⟩
    .ok ⟨mergeLoop ov pageNum 0 doc.pages, doc.metadata⟩

/-- `add_f2f_signature_to_pdf` of `pdf_signer.py`: always merges onto the last
page, drawing the audit text box.  `uuidGen` stands for the `uuid4()` drawn when
no document id is supplied. -/
def add_f2f_signature_to_pdf (doc : PdfDoc) (sigImage : SigImage) (position : MergePos)
    (signerName : Option String) (documentId : Option String) (ipAddress : Option String)
    (uuidGen : String) (now : Time) : Except String PdfDoc :=
  match doc.pages.getLast? with
  | none => .error "PDF has no pages"
  | some targetPage =>
    let pageNum := doc.pages.length - 1
    let pageWidth := targetPage.width
    let pageHeight := targetPage.height
    let sigWidth := position.width.getD sigImage.width
    let sigHeight := position.height.getD sigImage.height
    let textBoxHeight : ℚ := 4 * 11 + 10
    let x := position.x.getD 100
    let yFromTop := position.y.getD 100
    let y := pageHeight - yFromTop - sigHeight
    let y := max (textBoxHeight + 10) (min y (pageHeight - sigHeight - 10))
    let x := max 10 (min x (pageWidth - max sigWidth 150 - 10))
    let docId := match documentId with
      | some s => if s = "" then uuidGen else s
      | none => uuidGen
    let ip := match ipAddress with
      | some s => if s = "" then "::1" else s
      | none => "::1"
    let ov : Overlay :=
      ⟨pageWidth, pageHeight, x, y, sigWidth, sigHeight, signerName, now, some docId,
        some ip, true⟩
    .ok ⟨mergeLoop ov pageNum 0 doc.pages, doc.metadata⟩

/-- One `(signature_data, position)` entry of `add_multiple_signatures`. -/
structure SigEntry where
  image : SigImage
  position : MergePos
  deriving DecidableEq, Repr

/-- The body of the `add_multiple_signatures` loop, threading the current
document state.  `ts` is the single timestamp captured before the loop.
An out-of-range page index raises (`reader.pages[page_num]`), modelled as
`.error`.  The fresh `PdfWriter` of each pass carries no metadata. -/
def multipleLoop (signerName : Option String) (ts : Time) :
    PdfDoc → List SigEntry → Except String PdfDoc
  | d, [] => .ok d
  | d, e :: rest =>
    let pageNum := e.position.page.getD 0
    match d.pages.get? pageNum with
    | none => .error "IndexError: list index out of range"
    | some targetPage =>
      let pageHeight := targetPage.height
      let sigWidth := e.position.width.getD e.image.width
      let sigHeight := e.position.height.getD e.image.height
      let textHeight : ℚ := if signerName.isSome then 30 else 0
      let x := e.position.x.getD 100
      let yFromTop := e.position.y.getD 100
      let y := pageHeight - yFromTop - sigHeight
      let y := max textHeight y
      let ov : Overlay :=
        ⟨targetPage.width, pageHeight, x, y, sigWidth, sigHeight, signerName, ts, none,
          none, false⟩
      multipleLoop signerName ts ⟨mergeLoop ov pageNum 0 d.pages, none⟩ rest

/-- `add_multiple_signatures` of `pdf_signer.py`: one `datetime.now()` reading
`now` is captured before the loop and used for every signature. -/
def add_multiple_signatures (doc : PdfDoc) (signatures : List SigEntry)
    (signerName : Option String) (now : Time) : Except String PdfDoc :=
  multipleLoop signerName now doc signatures

/-! ## `app.py`: the signing endpoints

A document row carries both library views of the same file: the pdfplumber view
(`detPages`, what the detector reads) and the PyPDF2 view (`pdf`, what the
signer merges into).  `sha256` and `decrypt` are abstract function arguments,
as is `imgOf` (decoding the decrypted PNG bytes into its raster dimensions). -/

/-- A `Document` row, reduced to the fields the signing endpoints read. -/
structure DbDoc where
  id : ℕ
  filename : String
  document_type : String
  status : String
  detPages : List Page
  pdf : PdfDoc
  signedPdf : Option PdfDoc
  deriving DecidableEq, Repr

/-- A `Signature` row: encrypted blob, stored integrity hash, optional
signer name. -/
structure SigRecord where
  encrypted : List ℕ
  file_hash : List ℕ
  signer_name : Option String
  deriving DecidableEq, Repr

/-- `db.session` update of one document: replace the first row with this id. -/
def updateDoc : List DbDoc → ℕ → DbDoc → List DbDoc
  | [], _, _ => []
  | d :: ds, i, d' => if d.id = i then d' :: ds else d :: updateDoc ds i d'

/-- `Document.query.get(id)`: first row with this id. -/
def findDoc (db : List DbDoc) (i : ℕ) : Option DbDoc :=
  db.find? fun d => d.id = i

/-- The JSON body of a single-document sign request. -/
structure SignReq where
  position : Option MergePos
  positions : Option (List MergePos)
  deriving DecidableEq, Repr

/-- External collaborators of the signing endpoints, passed in as abstract
functions: hashing, decryption, image decoding. -/
structure SignEnv where
  sha256 : List ℕ → List ℕ
  decrypt : List ℕ → List ℕ
  imgOf : List ℕ → SigImage

/-- `sign_document` of `app.py` (single-document endpoint): returns the HTTP
outcome and the updated database (unchanged on every error path, matching
`db.session.rollback()`).  `docUuid` is the `uuid4()` drawn for the F2F box,
`clientIp` the request address, `now` the clock reading. -/
def sign_document (env : SignEnv) (db : List DbDoc) (docId : ℕ) (sig : Option SigRecord)
    (userName : String) (req : SignReq) (docUuid clientIp : String) (now : Time) :
    Except String String × List DbDoc :=
  match findDoc db docId with
  | none => (.error "Not found", db)
  | some document =>
    if document.status = "signed" then (.error "Document already signed", db)
    else match sig with
    | none => (.error "No signature found. Please upload your signature first.", db)
    | some signature =>
      let position := req.position
      let positions := (req.positions.getD [])
      if position = none ∧ positions = [] then (.error "Signature position required", db)
      else
        let signatureData := env.decrypt signature.encrypted
        if env.sha256 signatureData ≠ signature.file_hash then
          (.error "Signature integrity check failed", db)
        else
          let signerName := signature.signer_name.getD userName
          let signResult : Except String PdfDoc :=
            if document.document_type = "f2f" then
              let pos := match positions with
                | p :: _ => p
                | [] => position.getD ⟨none, none, none, none, none⟩
              add_f2f_signature_to_pdf document.pdf (env.imgOf signatureData) pos
                (some signerName) (some docUuid) (some clientIp) docUuid now
            else if positions ≠ [] then
              add_multiple_signatures document.pdf
                (positions.map fun p => ⟨env.imgOf signatureData, p⟩) (some signerName) now
            else
              add_signature_to_pdf document.pdf (env.imgOf signatureData)
                (position.getD ⟨none, none, none, none, none⟩) (some signerName) now
          match signResult with
          | .error e => (.error ("Failed to sign document: " ++ e), db)
          | .ok signedPdf =>
            (.ok "Document signed successfully",
             updateDoc db docId { document with status := "signed", signedPdf := some signedPdf })

/-- One entry of the bulk-sign request body. -/
structure BulkReqDoc where
  id : ℕ
  positions : List MergePos
  position : Option MergePos
  deriving DecidableEq, Repr

/-- A member of the bulk response's `successful` list. -/
structure SuccessEntry where
  id : ℕ
  filename : String
  num_signatures : ℕ
  is_f2f : Bool
  deriving DecidableEq, Repr

/-- A member of the bulk response's `failed` list (`filename` is absent for an
unknown document id). -/
structure FailEntry where
  id : ℕ
  filename : Option String
  error : String
  deriving DecidableEq, Repr

/-- The outcome of processing one bulk entry. -/
inductive StepOut where
  | notFound
  | failed (filename : String) (msg : String)
  | ok (filename : String) (numSigs : ℕ) (isF2f : Bool) (db' : List DbDoc)
  deriving Repr

/-- The per-document body of the `bulk_sign_documents` loop: look the document
up, reject if already signed, auto-detect positions if requested, then sign,
catching any compositing error as this document's failure.  `rng` feeds any F2F
auto-detection. -/
def bulkStep (env : SignEnv) (sqrtFn : ℚ → ℚ) (rng : ℚ × ℚ) (autoMode : Bool)
    (sigBytes : List ℕ) (signerName : String) (docUuid clientIp : String) (now : Time)
    (db : List DbDoc) (r : BulkReqDoc) : StepOut :=
  match findDoc db r.id with
  | none => .notFound
  | some document =>
    if document.status = "signed" then .failed document.filename "Already signed"
    else
      let isF2f := document.document_type = "f2f"
      let detected : Option (List MergePos) :=
        if r.positions = [] ∧ r.position = none ∧ autoMode then
          let detection :=
            if isF2f then detect_f2f_signature_position document.detPages rng.1 rng.2
            else detect_all_signature_positions sqrtFn document.detPages
          if detection.found ∧ detection.positions ≠ [] then
            some (detection.positions.map fun p =>
              ⟨some p.page, some p.x, some p.y, some p.width, some p.height⟩)
          else none
        else some r.positions
      match detected with
      | none => .failed document.filename "Could not detect signature positions"
      | some ps0 =>
        let ps := match r.position, ps0 with
          | some p, [] => [p]
          | _, _ => ps0
        match ps with
        | [] => .failed document.filename "No positions provided"
        | p :: rest =>
          let signResult : Except String PdfDoc :=
            if isF2f then
              add_f2f_signature_to_pdf document.pdf (env.imgOf sigBytes) p
                (some signerName) (some docUuid) (some clientIp) docUuid now
            else if rest ≠ [] then
              add_multiple_signatures document.pdf
                ((p :: rest).map fun q => ⟨env.imgOf sigBytes, q⟩) (some signerName) now
            else
              add_signature_to_pdf document.pdf (env.imgOf sigBytes) p (some signerName) now
          match signResult with
          | .error e => .failed document.filename e
          | .ok signedPdf =>
            .ok document.filename (if isF2f then 1 else (p :: rest).length) isF2f
              (updateDoc db r.id
                { document with status := "signed", signedPdf := some signedPdf })

/-- The `for doc_info in documents_to_sign` loop of `bulk_sign_documents`:
every entry lands in exactly one of the two result lists and the loop never
aborts early. -/
def bulkLoop (env : SignEnv) (sqrtFn : ℚ → ℚ) (rng : ℚ × ℚ) (autoMode : Bool)
    (sigBytes : List ℕ) (signerName : String) (docUuid clientIp : String) (now : Time) :
    List DbDoc → List BulkReqDoc → List SuccessEntry × List FailEntry
  | _, [] => ([], [])
  | db, r :: rs =>
    match bulkStep env sqrtFn rng autoMode sigBytes signerName docUuid clientIp now db r with
    | .notFound =>
      ((bulkLoop env sqrtFn rng autoMode sigBytes signerName docUuid clientIp now db rs).1,
       ⟨r.id, none, "Document not found"⟩ ::
         (bulkLoop env sqrtFn rng autoMode sigBytes signerName docUuid clientIp now db rs).2)
    | .failed fn msg =>
      ((bulkLoop env sqrtFn rng autoMode sigBytes signerName docUuid clientIp now db rs).1,
       ⟨r.id, some fn, msg⟩ ::
         (bulkLoop env sqrtFn rng autoMode sigBytes signerName docUuid clientIp now db rs).2)
    | .ok fn n isF2f db' =>
      (⟨r.id, fn, n, isF2f⟩ ::
         (bulkLoop env sqrtFn rng autoMode sigBytes signerName docUuid clientIp now db' rs).1,
       (bulkLoop env sqrtFn rng autoMode sigBytes signerName docUuid clientIp now db' rs).2)

/-- `bulk_sign_documents` of `app.py`, after the batch-level signature fetch,
decryption and integrity check have passed (those precede the loop and abort
the whole request when they fail). -/
def bulk_sign_documents (env : SignEnv) (sqrtFn : ℚ → ℚ) (rng : ℚ × ℚ) (autoMode : Bool)
    (sigBytes : List ℕ) (signerName : String) (docUuid clientIp : String) (now : Time)
    (db : List DbDoc) (reqs : List BulkReqDoc) : List SuccessEntry × List FailEntry :=
  bulkLoop env sqrtFn rng autoMode sigBytes signerName docUuid clientIp now db reqs

/-! ## Concrete test documents -/

/-- An empty 50×50 page: too small for any blank-space candidate. -/
def tinyPage : Page := ⟨50, 50, "", [], [], []⟩

/-- A 50×50 page whose only word is the anchor keyword. -/
def tinyKwPage : Page := ⟨50, 50, "signature", [⟨"signature", 12, 12, 45, 20⟩], [], []⟩

/-- An empty US-letter page. -/
def bigPage : Page := ⟨612, 792, "", [], [], []⟩

/-- The placement rectangle `[x, x+width] × [y, y+height]` lies inside
`[0, pageWidth] × [0, pageHeight]` of the placement's target page. -/
def posInBounds (doc : List Page) (pos : Position) : Bool :=
  match doc.get? pos.page with
  | some pg =>
    decide (0 ≤ pos.x) && decide (pos.x + pos.width ≤ pg.width) &&
    decide (0 ≤ pos.y) && decide (pos.y + pos.height ≤ pg.height)
  | none => false

/-! ## Theorems -/

/-- **C1**: for every document with at least one page, F2F detection reports
`found = true` and exactly one placement, on page `N-1`, whatever the random
draws are. -/
theorem c1_f2f_exactly_one_on_last_page (doc : List Page) (r1 r2 : ℚ)
    (h : 1 ≤ doc.length) :
    (detect_f2f_signature_position doc r1 r2).found = true ∧
    ((detect_f2f_signature_position doc r1 r2).positions.map Position.page) =
      [doc.length - 1] := by
  have h0 : ¬ doc.length = 0 := by omega
  have hne : doc ≠ [] := by
    intro he
    rw [he] at h
    exact absurd h (by decide)
  obtain ⟨lp, hlp⟩ := Option.isSome_iff_exists.mp (List.getLast?_isSome.mpr hne)
  unfold detect_f2f_signature_position
  simp only [if_neg h0, hlp]
  cases hfb : find_blank_space_on_page lp SIG_WIDTH SIG_HEIGHT true <;> simp

/-- Witness for C1 at a one-page document. -/
theorem c1_witness :
    1 ≤ ([bigPage] : List Page).length ∧
    (detect_f2f_signature_position [bigPage] 0 0).found = true ∧
    ((detect_f2f_signature_position [bigPage] 0 0).positions.map Position.page) = [0] :=
  ⟨by decide, by simpa using c1_f2f_exactly_one_on_last_page [bigPage] 0 0 (by decide)⟩

/-- **C9 counterexample**: on a one-page 50×50 document the last-page
blank-space search fails and the F2F random fallback kicks in; two runs with
different `random.uniform` draws return different placements, so F2F detection
is not deterministic. -/
theorem c9_counterexample :
    detect_f2f_signature_position [tinyPage] 0 0 ≠
      detect_f2f_signature_position [tinyPage] 1 1 := by
  with_unfolding_all decide

/-- **C9 amended**: generic detection is a pure function of the document, and
F2F detection is independent of the random draws whenever the last-page
blank-space search succeeds; only the no-free-space F2F fallback is random. -/
theorem c9_detection_deterministic (sqrtFn : ℚ → ℚ) (doc : List Page) (lp : Page)
    (bp : ℚ × ℚ) (r1 r2 r1' r2' : ℚ)
    (hlp : doc.getLast? = some lp)
    (hbs : find_blank_space_on_page lp SIG_WIDTH SIG_HEIGHT true = some bp) :
    detect_all_signature_positions sqrtFn doc = detect_all_signature_positions sqrtFn doc ∧
    detect_f2f_signature_position doc r1 r2 = detect_f2f_signature_position doc r1' r2' := by
  refine ⟨rfl, ?_⟩
  unfold detect_f2f_signature_position
  simp only [hlp, hbs]

/-- Witness for C9 at a one-page document with free space. -/
theorem c9_witness :
    (([bigPage] : List Page).getLast? = some bigPage) ∧
    (find_blank_space_on_page bigPage SIG_WIDTH SIG_HEIGHT true = some (10, 712)) ∧
    detect_f2f_signature_position [bigPage] 0 0 =
      detect_f2f_signature_position [bigPage] 1 1 :=
  ⟨by with_unfolding_all decide, by with_unfolding_all decide,
    (c9_detection_deterministic (fun q => q) [bigPage] bigPage (10, 712) 0 0 1 1
      (by with_unfolding_all decide) (by with_unfolding_all decide)).2⟩

/-- When no page text matches the anchor pattern, no page contributes an
anchored placement. -/
theorem pagePlacement_eq_none (sqrtFn : ℚ → ℚ) (doc : List Page)
    (hno : ∀ p ∈ doc, pageMatchesKeyword p.text = false) (idx : ℕ) :
    pagePlacement sqrtFn doc idx = none := by
  unfold pagePlacement
  cases hg : doc.get? idx with
  | none => rfl
  | some page =>
    have hp : pageMatchesKeyword page.text = false := hno page (List.get?_mem hg)
    simp [hp]

/-- **C3 amended**: when no page's text matches the anchor pattern, generic
detection falls back to the last-page blank-space search: if that search finds
a spot, the result is `found = true` with exactly one low-confidence,
keyword-less placement on the last page; if the search fails (a page too full
or too small), the result is `found = false` with no placements. -/
theorem c3_no_keyword_generic_fallback (sqrtFn : ℚ → ℚ) (doc : List Page) (lp : Page)
    (ob : Option (ℚ × ℚ))
    (hno : ∀ p ∈ doc, pageMatchesKeyword p.text = false)
    (hlp : doc.getLast? = some lp)
    (hfb : find_blank_space_on_page lp SIG_WIDTH SIG_HEIGHT true = ob) :
    detect_all_signature_positions sqrtFn doc =
      match ob with
      | some bp =>
        ⟨true, [⟨doc.length - 1, bp.1, bp.2, SIG_WIDTH, SIG_HEIGHT, "low",
          "blank_space_fallback", none⟩], doc.length⟩
      | none => ⟨false, [], doc.length⟩ := by
  have hne : doc ≠ [] := List.getLast?_isSome.mp (by simp [hlp])
  have h0 : ¬ doc.length = 0 := by simpa [List.length_eq_zero] using hne
  have hfm : collectAnchored sqrtFn doc = [] :=
    List.filterMap_eq_nil_iff.mpr fun a _ => pagePlacement_eq_none sqrtFn doc hno a
  unfold detect_all_signature_positions fallbackPositions
  simp only [if_neg h0, hfm, hlp, hfb]
  cases ob with
  | some bp => simp [sortByPage, List.insertionSort, List.orderedInsert]
  | none => simp

/-- **C3 counterexample**: a one-page 50×50 document with no text matches no
anchor pattern, yet generic detection returns `found = false` with no
placements (the blank-space fallback finds no room), contradicting the claimed
`found = true` with one placement. -/
theorem c3_counterexample :
    pageMatchesKeyword tinyPage.text = false ∧
    (detect_all_signature_positions (fun q => q) [tinyPage]).found = false ∧
    (detect_all_signature_positions (fun q => q) [tinyPage]).positions = [] := by
  with_unfolding_all decide

/-- An anchored placement records the index of the page it was found on. -/
theorem pagePlacement_page (sqrtFn : ℚ → ℚ) (doc : List Page) (idx : ℕ) (pos : Position)
    (h : pagePlacement sqrtFn doc idx = some pos) : pos.page = idx := by
  unfold pagePlacement at h
  split at h
  · cases h
  · split at h
    · split at h
      · cases h
      · cases h
        rfl
    · cases h

/-- The pages of the placements collected over an index list form a sublist of
that index list. -/
theorem pages_filterMap_sublist (sqrtFn : ℚ → ℚ) (doc : List Page) :
    ∀ l : List ℕ,
      ((l.filterMap (pagePlacement sqrtFn doc)).map Position.page).Sublist l
  | [] => by simp
  | a :: l => by
    cases h : pagePlacement sqrtFn doc a with
    | none =>
      simpa [List.filterMap_cons, h] using (pages_filterMap_sublist sqrtFn doc l).cons a
    | some p =>
      have hp : p.page = a := pagePlacement_page sqrtFn doc a p h
      simpa [List.filterMap_cons, h, hp] using (pages_filterMap_sublist sqrtFn doc l).cons₂ a

/-- **C2**: generic detection returns at most one placement per page: the list
is no longer than the page count and no two placements share a page index. -/
theorem c2_at_most_one_per_page (sqrtFn : ℚ → ℚ) (doc : List Page) :
    (detect_all_signature_positions sqrtFn doc).positions.length ≤ doc.length ∧
    ((detect_all_signature_positions sqrtFn doc).positions.map Position.page).Nodup := by
  unfold detect_all_signature_positions
  by_cases h0 : doc.length = 0
  · simp [h0]
  · simp only [if_neg h0]
    by_cases hemp : collectAnchored sqrtFn doc = []
    · simp only [hemp, if_pos]
      unfold fallbackPositions
      cases hgl : doc.getLast? with
      | none => simp
      | some lp =>
        cases hfb : find_blank_space_on_page lp SIG_WIDTH SIG_HEIGHT true with
        | none => simp [hfb]
        | some bp =>
          have h1 : 1 ≤ doc.length := Nat.one_le_iff_ne_zero.mpr h0
          simp [hfb, sortByPage, List.insertionSort, List.orderedInsert, h1]
    · simp only [if_neg hemp]
      have hsub := pages_filterMap_sublist sqrtFn doc (List.range doc.length).reverse
      have hperm := List.perm_insertionSort (fun a b => a.page ≤ b.page)
        (collectAnchored sqrtFn doc)
      have hlen : (collectAnchored sqrtFn doc).length ≤ doc.length := by
        have := hsub.length_le
        simpa [collectAnchored] using this
      have hnd : ((collectAnchored sqrtFn doc).map Position.page).Nodup :=
        hsub.nodup (by simpa using List.nodup_range doc.length)
      constructor
      · simpa [sortByPage, hperm.length_eq] using hlen
      · exact ((hperm.map Position.page).nodup_iff).mpr hnd

/-- A candidate accepted by a raster-scan stage satisfies the stage's
predicate. -/
theorem scanStage_ok (ys xs : List ℤ) (ok : ℚ → ℚ → Bool) (p : ℚ × ℚ)
    (h : scanStage ys xs ok = some p) : ok p.1 p.2 = true := by
  unfold scanStage at h
  rw [List.findSome?_eq_some_iff] at h
  obtain ⟨l1, y, l2, -, hfy, -⟩ := h
  cases hfind : List.find? (fun x => ok (x : ℚ) (y : ℚ)) xs with
  | none => rw [hfind] at hfy; cases hfy
  | some x =>
    rw [hfind] at hfy
    have hok := List.find?_some hfind
    cases hfy
    exact hok

/-- Every position returned by `find_blank_space_on_page` passed the
`is_area_clear` test. -/
theorem find_blank_space_clear (page : Page) (sw sh : ℚ) (ac : Bool) (bp : ℚ × ℚ)
    (h : find_blank_space_on_page page sw sh ac = some bp) :
    is_area_clear (occupiedOf page.words page.lines page.rects) page.width page.height
      bp.1 bp.2 sw (sh + TEXT_HEIGHT) = true := by
  simp only [find_blank_space_on_page] at h
  split at h
  next p heq =>
    cases h
    have hok := scanStage_ok _ _ _ _ heq
    simp only [Bool.and_eq_true] at hok
    exact hok.1
  next =>
    split at h
    next p heq =>
      cases h
      have hok := scanStage_ok _ _ _ _ heq
      simp only [Bool.and_eq_true] at hok
      exact hok.1
    next =>
      split at h
      next p heq =>
        cases h
        have hok := scanStage_ok _ _ _ _ heq
        simp only [Bool.and_eq_true] at hok
        exact hok.1
      next =>
        split at h
        next p heq =>
          cases h
          have hok := scanStage_ok _ _ _ _ heq
          simp only [Bool.and_eq_true] at hok
          exact hok.1
        next =>
          split at h
          next p heq =>
            cases h
            have hok := scanStage_ok _ _ _ _ heq
            simp only [Bool.and_eq_true] at hok
            exact hok.1
          next =>
            exact scanStage_ok _ _ _ _ h

/-- Bounds extracted from a successful `is_area_clear` test. -/
theorem is_area_clear_bounds (occ : List ORect) (pw ph x y w ht : ℚ)
    (h : is_area_clear occ pw ph x y w ht = true) :
    PADDING ≤ x ∧ PADDING ≤ y ∧ x + w ≤ pw - PADDING ∧ y + ht ≤ ph - PADDING := by
  unfold is_area_clear at h
  split at h
  · cases h
  · split at h
    · cases h
    · next h1 h2 =>
      push_neg at h1 h2
      exact ⟨h1.1, h1.2, h2.1, h2.2⟩

/-- The clamping step of the anchored path keeps the signature rectangle on the
page whenever the page is at least 130 points wide and 90 points tall. -/
theorem clampDetected_bounds (pw ph x y : ℚ) (hw : 130 ≤ pw) (hh : 90 ≤ ph) :
    0 ≤ (clampDetected pw ph x y).1 ∧ (clampDetected pw ph x y).1 + SIG_WIDTH ≤ pw ∧
    0 ≤ (clampDetected pw ph x y).2 ∧ (clampDetected pw ph x y).2 + SIG_HEIGHT ≤ ph := by
  simp only [clampDetected, SIG_WIDTH, SIG_HEIGHT, TEXT_HEIGHT]
  split_ifs <;>
    refine ⟨by linarith, by linarith, by linarith, by linarith⟩

/-- `getLast?` agrees with indexing at `length - 1`. -/
theorem getLast?_eq_get?_pred {α : Type} (l : List α) (a : α) (h : l.getLast? = some a) :
    l.get? (l.length - 1) = some a := by
  rw [List.get?_eq_getElem?]
  rw [List.getLast?_eq_getElem?] at h
  exact h

/-- Any anchored placement lands fully inside its page, provided every page is
at least 130 points wide and 90 points tall. -/
theorem pagePlacement_in_bounds (sqrtFn : ℚ → ℚ) (doc : List Page) (idx : ℕ)
    (pos : Position) (h : pagePlacement sqrtFn doc idx = some pos)
    (hdim : ∀ p ∈ doc, (130 : ℚ) ≤ p.width ∧ (90 : ℚ) ≤ p.height) :
    posInBounds doc pos = true := by
  unfold pagePlacement at h
  split at h
  · cases h
  next page hget =>
    split at h
    · split at h
      · cases h
      next w hw =>
        cases h
        have hd := hdim page (List.get?_mem hget)
        obtain ⟨hx0, hx1, hy0, hy1⟩ :=
          clampDetected_bounds page.width page.height
            (find_blank_space_near_keyword sqrtFn page w page.words SIG_WIDTH SIG_HEIGHT).1
            (find_blank_space_near_keyword sqrtFn page w page.words SIG_WIDTH SIG_HEIGHT).2
            hd.1 hd.2
        unfold posInBounds
        rw [hget]
        simp only [Bool.and_eq_true, decide_eq_true_eq]
        exact ⟨⟨⟨hx0, hx1⟩, hy0⟩, hy1⟩
    · cases h

/-- A blank-space fallback placement (generic or F2F) on the last page lies
fully inside that page, no matter the labels it carries. -/
theorem fallback_pos_in_bounds (doc : List Page) (lp : Page) (bp : ℚ × ℚ)
    (conf meth : String) (kw : Option String)
    (hgl : doc.getLast? = some lp)
    (hfb : find_blank_space_on_page lp SIG_WIDTH SIG_HEIGHT true = some bp) :
    posInBounds doc
      ⟨doc.length - 1, bp.1, bp.2, SIG_WIDTH, SIG_HEIGHT, conf, meth, kw⟩ = true := by
  obtain ⟨ha, hb, hc, hd⟩ :=
    is_area_clear_bounds _ _ _ _ _ _ _ (find_blank_space_clear lp SIG_WIDTH SIG_HEIGHT true bp hfb)
  simp only [PADDING, SIG_WIDTH, SIG_HEIGHT, TEXT_HEIGHT] at ha hb hc hd
  unfold posInBounds
  rw [getLast?_eq_get?_pred doc lp hgl]
  simp only [Bool.and_eq_true, decide_eq_true_eq, SIG_WIDTH, SIG_HEIGHT]
  exact ⟨⟨⟨by linarith, by linarith⟩, by linarith⟩, by linarith⟩

/-- The F2F random-fallback point stays inside the page whenever the page is at
least 160 points wide and 225 points tall and the draws lie in `[0,1]`. -/
theorem f2fFallbackXY_bounds (pw ph r1 r2 : ℚ) (hw : 160 ≤ pw) (hh : 225 ≤ ph)
    (h1 : 0 ≤ r1) (h1' : r1 ≤ 1) (h2 : 0 ≤ r2) (h2' : r2 ≤ 1) :
    0 ≤ (f2fFallbackXY pw ph r1 r2).1 ∧
    (f2fFallbackXY pw ph r1 r2).1 + SIG_WIDTH ≤ pw ∧
    0 ≤ (f2fFallbackXY pw ph r1 r2).2 ∧
    (f2fFallbackXY pw ph r1 r2).2 + SIG_HEIGHT ≤ ph := by
  have h06 : (0.6 : ℚ) = 3 / 5 := by norm_num
  simp only [f2fFallbackXY, PADDING, SIG_WIDTH, SIG_HEIGHT, h06]
  have hxmaxlb : (10 : ℚ) + 10 + 20 ≤ max ((10 : ℚ) + 10 + 20) (pw / 2 - 220 - 10) :=
    le_max_left _ _
  have hxif : ¬ (max ((10 : ℚ) + 10 + 20) (pw / 2 - 220 - 10) ≤ 10 + 10) := by linarith
  rw [if_neg hxif]
  have hxmaxub : max ((10 : ℚ) + 10 + 20) (pw / 2 - 220 - 10) ≤ pw - 120 :=
    max_le (by linarith) (by linarith)
  have hxm : (0 : ℚ) ≤ max ((10 : ℚ) + 10 + 20) (pw / 2 - 220 - 10) - (10 + 10) := by
    linarith
  have hx1 : r1 * (max ((10 : ℚ) + 10 + 20) (pw / 2 - 220 - 10) - (10 + 10)) ≤
      max ((10 : ℚ) + 10 + 20) (pw / 2 - 220 - 10) - (10 + 10) :=
    mul_le_of_le_one_left hxm h1'
  have hx0 : (0 : ℚ) ≤ r1 * (max ((10 : ℚ) + 10 + 20) (pw / 2 - 220 - 10) - (10 + 10)) :=
    mul_nonneg h1 hxm
  refine ⟨by linarith, by linarith, ?_, ?_⟩
  all_goals {
    by_cases hyif : ph - 120 - 10 - 30 ≤ ph * (3 / 5)
    · rw [if_pos hyif]
      have hy1 : r2 * (ph * (3 / 5) + 50 - ph * (3 / 5)) ≤ ph * (3 / 5) + 50 - ph * (3 / 5) :=
        mul_le_of_le_one_left (by linarith) h2'
      have hy0 : (0 : ℚ) ≤ r2 * (ph * (3 / 5) + 50 - ph * (3 / 5)) :=
        mul_nonneg h2 (by linarith)
      linarith
    · rw [if_neg hyif]
      push_neg at hyif
      have hy1 : r2 * (ph - 120 - 10 - 30 - ph * (3 / 5)) ≤ ph - 120 - 10 - 30 - ph * (3 / 5) :=
        mul_le_of_le_one_left (by linarith) h2'
      have hy0 : (0 : ℚ) ≤ r2 * (ph - 120 - 10 - 30 - ph * (3 / 5)) :=
        mul_nonneg h2 (by linarith)
      linarith
  }

/-- **C4 amended**: every placement produced by any detection path lies fully
inside its target page, provided every page is at least 160 points wide and
225 points tall (true of any real paper size; the original claim fails on
smaller pages, where the anchored clamping and the F2F random fallback can
push the rectangle off the page). -/
theorem c4_placements_in_bounds (sqrtFn : ℚ → ℚ) (doc : List Page) (r1 r2 : ℚ)
    (hdim : ∀ p ∈ doc, (160 : ℚ) ≤ p.width ∧ (225 : ℚ) ≤ p.height)
    (h1 : 0 ≤ r1) (h1' : r1 ≤ 1) (h2 : 0 ≤ r2) (h2' : r2 ≤ 1) :
    (∀ pos ∈ (detect_all_signature_positions sqrtFn doc).positions,
      posInBounds doc pos = true) ∧
    (∀ pos ∈ (detect_f2f_signature_position doc r1 r2).positions,
      posInBounds doc pos = true) := by
  have hdim' : ∀ p ∈ doc, (130 : ℚ) ≤ p.width ∧ (90 : ℚ) ≤ p.height := fun p hp =>
    ⟨by linarith [(hdim p hp).1], by linarith [(hdim p hp).2]⟩
  constructor
  · intro pos hpos
    unfold detect_all_signature_positions at hpos
    by_cases h0 : doc.length = 0
    · simp [h0] at hpos
    · simp only [if_neg h0] at hpos
      by_cases hemp : collectAnchored sqrtFn doc = []
      · simp only [hemp, if_pos] at hpos
        unfold fallbackPositions at hpos
        cases hgl : doc.getLast? with
        | none => simp only [hgl] at hpos; simp at hpos
        | some lp =>
          cases hfb : find_blank_space_on_page lp SIG_WIDTH SIG_HEIGHT true with
          | none => simp only [hgl, hfb] at hpos; simp at hpos
          | some bp =>
            simp only [hgl, hfb] at hpos
            simp [sortByPage, List.insertionSort, List.orderedInsert] at hpos
            subst hpos
            exact fallback_pos_in_bounds doc lp bp _ _ _ hgl hfb
      · simp only [if_neg hemp] at hpos
        have hmem : pos ∈ collectAnchored sqrtFn doc := by
          unfold sortByPage at hpos
          exact (List.perm_insertionSort _ _).mem_iff.mp hpos
        obtain ⟨idx, -, hpp⟩ := List.mem_filterMap.mp hmem
        exact pagePlacement_in_bounds sqrtFn doc idx pos hpp hdim'
  · intro pos hpos
    unfold detect_f2f_signature_position at hpos
    by_cases h0 : doc.length = 0
    · simp [h0] at hpos
    · simp only [if_neg h0] at hpos
      cases hgl : doc.getLast? with
      | none => simp only [hgl] at hpos; simp at hpos
      | some lp =>
        have hlpm : lp ∈ doc := List.get?_mem (getLast?_eq_get?_pred doc lp hgl)
        cases hfb : find_blank_space_on_page lp SIG_WIDTH SIG_HEIGHT true with
        | some bp =>
          simp only [hgl, hfb] at hpos
          simp at hpos
          subst hpos
          exact fallback_pos_in_bounds doc lp bp _ _ _ hgl hfb
        | none =>
          simp only [hgl, hfb] at hpos
          simp at hpos
          subst hpos
          obtain ⟨hx0, hx1, hy0, hy1⟩ :=
            f2fFallbackXY_bounds lp.width lp.height r1 r2 (hdim lp hlpm).1 (hdim lp hlpm).2
              h1 h1' h2 h2'
          unfold posInBounds
          rw [getLast?_eq_get?_pred doc lp hgl]
          simp only [Bool.and_eq_true, decide_eq_true_eq]
          exact ⟨⟨⟨hx0, hx1⟩, hy0⟩, hy1⟩

/-- **C4 counterexample**: on a 50×50 page containing the word `signature`, the
anchored path clamps the placement to `(x, y) = (10, -40)`, whose rectangle
`[10, 130] × [-40, 0]` sticks out of the page on two sides. -/
theorem c4_counterexample :
    (detect_all_signature_positions (fun q => q) [tinyKwPage]).positions.all
      (fun p => posInBounds [tinyKwPage] p) = false := by
  with_unfolding_all decide

/-- Witness for C4 (amended) at a one-page empty US-letter document. -/
theorem c4_witness :
    posInBounds [bigPage]
      ⟨0, 10, 712, SIG_WIDTH, SIG_HEIGHT, "low", "blank_space_fallback", none⟩ = true :=
  (c4_placements_in_bounds (fun q => q) [bigPage] 0 0
      (by with_unfolding_all decide) (by norm_num) (by norm_num) (by norm_num)
      (by norm_num)).1
    ⟨0, 10, 712, SIG_WIDTH, SIG_HEIGHT, "low", "blank_space_fallback", none⟩
    (by with_unfolding_all decide)

/-- The writer loop preserves the number of pages. -/
theorem mergeLoop_length (ov : Overlay) (n : ℕ) : ∀ (i : ℕ) (ps : List PdfPage),
    (mergeLoop ov n i ps).length = ps.length
  | _, [] => rfl
  | i, _ :: ps => by simp [mergeLoop, mergeLoop_length ov n (i + 1) ps]

/-- Indexing through the writer loop: only the slot whose absolute index is the
target page is merged. -/
theorem mergeLoop_get? (ov : Overlay) (n : ℕ) : ∀ (i j : ℕ) (ps : List PdfPage),
    (mergeLoop ov n i ps).get? j =
      (ps.get? j).map fun p => if i + j = n then mergePage p ov else p
  | _, _, [] => by simp [mergeLoop]
  | i, 0, p :: ps => by simp [mergeLoop]
  | i, j + 1, p :: ps => by
    have hij : i + 1 + j = i + (j + 1) := by omega
    calc (mergeLoop ov n i (p :: ps)).get? (j + 1)
        = (mergeLoop ov n (i + 1) ps).get? j := rfl
      _ = (ps.get? j).map (fun q => if i + 1 + j = n then mergePage q ov else q) :=
          mergeLoop_get? ov n (i + 1) j ps
      _ = ((p :: ps).get? (j + 1)).map
            (fun q => if i + (j + 1) = n then mergePage q ov else q) := by
          rw [hij, List.get?_cons_succ]

/-- Pages other than the target page come out of the writer loop unchanged. -/
theorem mergeLoop_frame (ov : Overlay) (n j : ℕ) (ps : List PdfPage) (hj : j ≠ n) :
    (mergeLoop ov n 0 ps).get? j = ps.get? j := by
  rw [mergeLoop_get? ov n 0 j ps]
  cases ps.get? j <;> simp [hj]

/-- **C5**: merging one signature overlay (standard or F2F) leaves every page
other than the target page unchanged and carries the source document's
metadata into the output unaltered.  (In this embedding both signers are pure:
the input document value is never mutated and each call builds a fresh output
document.) -/
theorem c5_merge_frame (doc : PdfDoc) (img : SigImage) (pos posF : MergePos)
    (name nameF : Option String) (docId ip : Option String) (uuid : String)
    (now nowF : Time) (out outF : PdfDoc)
    (hok : add_signature_to_pdf doc img pos name now = .ok out)
    (hokF : add_f2f_signature_to_pdf doc img posF nameF docId ip uuid nowF = .ok outF) :
    (out.metadata = doc.metadata ∧ out.pages.length = doc.pages.length ∧
      ∀ i, i ≠ pos.page.getD 0 → out.pages.get? i = doc.pages.get? i) ∧
    (outF.metadata = doc.metadata ∧ outF.pages.length = doc.pages.length ∧
      ∀ i, i ≠ doc.pages.length - 1 → outF.pages.get? i = doc.pages.get? i) := by
  constructor
  · unfold add_signature_to_pdf at hok
    cases hget : doc.pages.get? (pos.page.getD 0) with
    | none =>
      simp only [hget] at hok
      simp at hok
    | some target =>
      simp only [hget] at hok
      cases hok
      exact ⟨rfl, mergeLoop_length _ _ 0 doc.pages,
        fun i hi => mergeLoop_frame _ _ i doc.pages hi⟩
  · unfold add_f2f_signature_to_pdf at hokF
    cases hgl : doc.pages.getLast? with
    | none =>
      simp only [hgl] at hokF
      simp at hokF
    | some target =>
      simp only [hgl] at hokF
      cases hokF
      exact ⟨rfl, mergeLoop_length _ _ 0 doc.pages,
        fun i hi => mergeLoop_frame _ _ i doc.pages hi⟩

/-- The overlays merged into a page list, page by page. -/
def overlaysOfPages : List PdfPage → List Overlay
  | [] => []
  | p :: ps =>
    (p.content.filterMap fun l =>
      match l with
      | .sig ov => some ov
      | .base _ => none) ++ overlaysOfPages ps

/-- All signature overlays present in a document. -/
def overlayStamps (d : PdfDoc) : List Overlay :=
  overlaysOfPages d.pages

/-- An overlay found after a writer-loop pass was already there or is the one
just merged. -/
theorem overlaysOf_mergeLoop (ov : Overlay) (n : ℕ) : ∀ (i : ℕ) (ps : List PdfPage)
    (x : Overlay), x ∈ overlaysOfPages (mergeLoop ov n i ps) →
      x ∈ overlaysOfPages ps ∨ x = ov
  | _, [], x, h => by simp [mergeLoop, overlaysOfPages] at h
  | i, p :: ps, x, h => by
    simp only [mergeLoop, overlaysOfPages, List.mem_append] at h ⊢
    rcases h with h | h
    · by_cases hin : i = n
      · subst hin
        rw [if_pos rfl] at h
        simp only [mergePage, List.filterMap_append] at h
        rcases List.mem_append.mp h with h1 | h2
        · exact .inl (.inl h1)
        · simp at h2
          exact .inr h2
      · rw [if_neg hin] at h
        exact .inl (.inl h)
    · rcases overlaysOf_mergeLoop ov n (i + 1) ps x h with h1 | h2
      · exact .inl (.inr h1)
      · exact .inr h2

/-- The timestamp fact for the `add_multiple_signatures` loop: every overlay of
the output was already in the input or carries the single captured timestamp. -/
theorem multipleLoop_ts (name : Option String) (now : Time) :
    ∀ (sigs : List SigEntry) (d out : PdfDoc),
      multipleLoop name now d sigs = .ok out →
      ∀ ov ∈ overlaysOfPages out.pages, ov ∈ overlaysOfPages d.pages ∨ ov.ts = now
  | [], d, out, h => by
    cases h
    exact fun ov hov => .inl hov
  | e :: rest, d, out, h => by
    unfold multipleLoop at h
    cases hget : d.pages.get? (e.position.page.getD 0) with
    | none =>
      simp only [hget] at h
      simp at h
    | some target =>
      simp only [hget] at h
      intro ov hov
      rcases multipleLoop_ts name now rest _ out h ov hov with hmem | hts
      · rcases overlaysOf_mergeLoop _ _ _ _ _ hmem with h1 | h2
        · exact .inl h1
        · right
          rw [h2]
      · exact .inr hts

/-- **C10**: `add_multiple_signatures` captures one timestamp before its merge
loop; every attestation overlay it adds renders that same timestamp, for any
number of placements. -/
theorem c10_single_timestamp (doc out : PdfDoc) (sigs : List SigEntry)
    (name : Option String) (now : Time)
    (h : add_multiple_signatures doc sigs name now = .ok out) :
    ∀ ov ∈ overlayStamps out, ov ∈ overlayStamps doc ∨ ov.ts = now :=
  multipleLoop_ts name now sigs doc out h

/-- A two-page document for the signer witnesses. -/
def pdfDoc2 : PdfDoc := ⟨[⟨612, 792, [Layer.base 0]⟩, ⟨612, 792, [Layer.base 1]⟩], some "meta"⟩

/-- A 300×100 signature raster. -/
def sigImg : SigImage := ⟨300, 100⟩

/-- A requested 120×60 box on page 1. -/
def mpos1 : MergePos := ⟨some 1, some 50, some 700, some 120, some 60⟩

/-- A requested 120×40 box on page 0. -/
def mpos0 : MergePos := ⟨some 0, some 40, some 600, some 120, some 40⟩

/-- The output of `add_signature_to_pdf pdfDoc2 sigImg mpos1 (some "Dr A") 7`. -/
def c5outStd : PdfDoc :=
  ⟨[⟨612, 792, [Layer.base 0]⟩,
    ⟨612, 792, [Layer.base 1,
      Layer.sig ⟨612, 792, 50, 52, 120, 40, some "Dr A", 7, none, none, false⟩]⟩],
   some "meta"⟩

/-- The output of the corresponding `add_f2f_signature_to_pdf` call. -/
def c5outF2f : PdfDoc :=
  ⟨[⟨612, 792, [Layer.base 0]⟩,
    ⟨612, 792, [Layer.base 1,
      Layer.sig ⟨612, 792, 50, 64, 120, 60, some "Dr A", 7, some "d-1", some "::1", true⟩]⟩],
   some "meta"⟩

/-- Witness for C5: a concrete two-page merge touches only page 1 and keeps the
metadata. -/
theorem c5_witness :
    add_signature_to_pdf pdfDoc2 sigImg mpos1 (some "Dr A") 7 = .ok c5outStd ∧
    add_f2f_signature_to_pdf pdfDoc2 sigImg mpos1 (some "Dr A") (some "d-1") (some "::1")
      "u-1" 7 = .ok c5outF2f ∧
    c5outStd.metadata = pdfDoc2.metadata ∧
    c5outStd.pages.get? 0 = pdfDoc2.pages.get? 0 ∧
    c5outF2f.metadata = pdfDoc2.metadata ∧
    c5outF2f.pages.get? 0 = pdfDoc2.pages.get? 0 := by
  have h1 : add_signature_to_pdf pdfDoc2 sigImg mpos1 (some "Dr A") 7 = .ok c5outStd := by
    with_unfolding_all rfl
  have h2 : add_f2f_signature_to_pdf pdfDoc2 sigImg mpos1 (some "Dr A") (some "d-1")
      (some "::1") "u-1" 7 = .ok c5outF2f := by
    with_unfolding_all rfl
  have h := c5_merge_frame pdfDoc2 sigImg mpos1 mpos1 (some "Dr A") (some "Dr A")
    (some "d-1") (some "::1") "u-1" 7 7 c5outStd c5outF2f h1 h2
  exact ⟨h1, h2, h.1.1, h.1.2.2 0 (by with_unfolding_all decide), h.2.1,
    h.2.2.2 0 (by with_unfolding_all decide)⟩

/-- The two signature entries of the C10 witness run. -/
def c10sigs : List SigEntry := [⟨sigImg, mpos0⟩, ⟨sigImg, mpos1⟩]

/-- The first overlay stamped by the C10 witness run. -/
def c10ovA : Overlay := ⟨612, 792, 40, 152, 120, 40, some "Dr A", 42, none, none, false⟩

/-- The second overlay stamped by the C10 witness run. -/
def c10ovB : Overlay := ⟨612, 792, 50, 32, 120, 60, some "Dr A", 42, none, none, false⟩

/-- The output of `add_multiple_signatures pdfDoc2 c10sigs (some "Dr A") 42`. -/
def c10out : PdfDoc :=
  ⟨[⟨612, 792, [Layer.base 0, Layer.sig c10ovA]⟩,
    ⟨612, 792, [Layer.base 1, Layer.sig c10ovB]⟩], none⟩

/-- Witness for C10 at a concrete two-signature run. -/
theorem c10_witness : c10ovA ∈ overlayStamps pdfDoc2 ∨ c10ovA.ts = 42 :=
  c10_single_timestamp pdfDoc2 c10out c10sigs (some "Dr A") 42
    (by with_unfolding_all rfl) c10ovA (by with_unfolding_all decide)

/-- **C7**: the bulk-sign loop processes every requested document: each request
lands in exactly one of the two result lists (so the result sizes add up to the
request count, and the result ids are a permutation of the request ids); no
single document's failure aborts the others. -/
theorem c7_batch_runs_to_completion (env : SignEnv) (sqrtFn : ℚ → ℚ) (rng : ℚ × ℚ)
    (autoMode : Bool) (sigBytes : List ℕ) (signerName docUuid clientIp : String)
    (now : Time) (db : List DbDoc) (reqs : List BulkReqDoc) :
    ((bulkLoop env sqrtFn rng autoMode sigBytes signerName docUuid clientIp now db
        reqs).1.length +
      (bulkLoop env sqrtFn rng autoMode sigBytes signerName docUuid clientIp now db
        reqs).2.length = reqs.length) ∧
    ((bulkLoop env sqrtFn rng autoMode sigBytes signerName docUuid clientIp now db
        reqs).1.map SuccessEntry.id ++
      (bulkLoop env sqrtFn rng autoMode sigBytes signerName docUuid clientIp now db
        reqs).2.map FailEntry.id).Perm (reqs.map BulkReqDoc.id) := by
  induction reqs generalizing db with
  | nil => simp [bulkLoop]
  | cons r rs ih =>
    unfold bulkLoop
    cases hstep : bulkStep env sqrtFn rng autoMode sigBytes signerName docUuid clientIp
        now db r with
    | notFound =>
      obtain ⟨ihl, ihp⟩ := ih db
      refine ⟨by simpa using by omega, ?_⟩
      · simp only [List.map_cons]
        exact (List.perm_middle).trans (ihp.cons r.id)
    | failed fn msg =>
      obtain ⟨ihl, ihp⟩ := ih db
      refine ⟨by simpa using by omega, ?_⟩
      · simp only [List.map_cons]
        exact (List.perm_middle).trans (ihp.cons r.id)
    | ok fn n isF2f db' =>
      obtain ⟨ihl, ihp⟩ := ih db'
      refine ⟨by simpa using by omega, ?_⟩
      · simp only [List.map_cons, List.cons_append]
        exact ihp.cons r.id

/-- **C8**: when the recomputed hash of the decrypted signature asset differs
from the stored hash, the sign endpoint returns the integrity error and the
database is unchanged: no page was mutated and the document status stays as it
was. -/
theorem c8_integrity_mismatch_aborts (env : SignEnv) (db : List DbDoc) (docId : ℕ)
    (document : DbDoc) (signature : SigRecord) (userName : String) (req : SignReq)
    (docUuid clientIp : String) (now : Time)
    (hfind : findDoc db docId = some document)
    (hstat : ¬ document.status = "signed")
    (hpos : ¬ (req.position = none ∧ req.positions.getD [] = []))
    (hmism : env.sha256 (env.decrypt signature.encrypted) ≠ signature.file_hash) :
    sign_document env db docId (some signature) userName req docUuid clientIp now =
      (.error "Signature integrity check failed", db) := by
  unfold sign_document
  simp only [hfind]
  rw [if_neg hstat, if_neg hpos, if_pos hmism]

/-- A pending document row. -/
def dbDocA : DbDoc := ⟨1, "a.pdf", "general", "pending", [bigPage], pdfDoc2, none⟩

/-- An already-signed document row. -/
def dbDocB : DbDoc := ⟨2, "b.pdf", "general", "signed", [bigPage], pdfDoc2, none⟩

/-- Another pending document row. -/
def dbDocC : DbDoc := ⟨3, "c.pdf", "general", "pending", [bigPage], pdfDoc2, none⟩

/-- A concrete collaborator environment: hashing prepends a byte, decryption
and image decoding are fixed functions. -/
def env0 : SignEnv := ⟨fun l => 0 :: l, fun l => l, fun _ => ⟨300, 100⟩⟩

/-- A signature row whose stored hash matches `env0`'s recomputation. -/
def sigRec0 : SigRecord := ⟨[5], [0, 5], some "Dr A"⟩

/-- A signature row whose stored hash does not match. -/
def sigRecBad : SigRecord := ⟨[5], [9], none⟩

/-- Witness for C8 at a concrete database. -/
theorem c8_witness :
    sign_document env0 [dbDocA] 1 (some sigRecBad) "U" ⟨some mpos0, none⟩ "u" "ip" 3 =
      (.error "Signature integrity check failed", [dbDocA]) :=
  c8_integrity_mismatch_aborts env0 [dbDocA] 1 dbDocA sigRecBad "U" ⟨some mpos0, none⟩
    "u" "ip" 3 (by with_unfolding_all decide) (by with_unfolding_all decide)
    (by with_unfolding_all decide) (by with_unfolding_all decide)

/-- The defining equation of `bulkLoop` on a non-empty request list. -/
theorem bulkLoop_cons (env : SignEnv) (sqrtFn : ℚ → ℚ) (rng : ℚ × ℚ) (autoMode : Bool)
    (sigBytes : List ℕ) (signerName docUuid clientIp : String) (now : Time)
    (db : List DbDoc) (r : BulkReqDoc) (rs : List BulkReqDoc) :
    bulkLoop env sqrtFn rng autoMode sigBytes signerName docUuid clientIp now db (r :: rs) =
      match bulkStep env sqrtFn rng autoMode sigBytes signerName docUuid clientIp now db r with
      | .notFound =>
        ((bulkLoop env sqrtFn rng autoMode sigBytes signerName docUuid clientIp now db rs).1,
         ⟨r.id, none, "Document not found"⟩ ::
           (bulkLoop env sqrtFn rng autoMode sigBytes signerName docUuid clientIp now db rs).2)
      | .failed fn msg =>
        ((bulkLoop env sqrtFn rng autoMode sigBytes signerName docUuid clientIp now db rs).1,
         ⟨r.id, some fn, msg⟩ ::
           (bulkLoop env sqrtFn rng autoMode sigBytes signerName docUuid clientIp now db rs).2)
      | .ok fn n isF2f db' =>
        (⟨r.id, fn, n, isF2f⟩ ::
           (bulkLoop env sqrtFn rng autoMode sigBytes signerName docUuid clientIp now db' rs).1,
         (bulkLoop env sqrtFn rng autoMode sigBytes signerName docUuid clientIp now db' rs).2) :=
  rfl

/-- A bulk step on an already-signed document fails with `Already signed` and
touches nothing. -/
theorem bulkStep_signed (env : SignEnv) (sqrtFn : ℚ → ℚ) (rng : ℚ × ℚ) (autoMode : Bool)
    (sigBytes : List ℕ) (signerName docUuid clientIp : String) (now : Time)
    (db : List DbDoc) (r : BulkReqDoc) (d : DbDoc)
    (hfind : findDoc db r.id = some d) (hst : d.status = "signed") :
    bulkStep env sqrtFn rng autoMode sigBytes signerName docUuid clientIp now db r =
      .failed d.filename "Already signed" := by
  unfold bulkStep
  simp only [hfind]
  rw [if_pos hst]

/-- A successful bulk step found a not-yet-signed document and only replaces
that document's row in the database. -/
theorem bulkStep_ok_inv (env : SignEnv) (sqrtFn : ℚ → ℚ) (rng : ℚ × ℚ) (autoMode : Bool)
    (sigBytes : List ℕ) (signerName docUuid clientIp : String) (now : Time)
    (db : List DbDoc) (r : BulkReqDoc) (fn : String) (n : ℕ) (f2 : Bool)
    (db' : List DbDoc)
    (h : bulkStep env sqrtFn rng autoMode sigBytes signerName docUuid clientIp now db r =
      .ok fn n f2 db') :
    ∃ d out, findDoc db r.id = some d ∧ ¬ d.status = "signed" ∧
      db' = updateDoc db r.id { d with status := "signed", signedPdf := some out } := by
  unfold bulkStep at h
  cases hfind : findDoc db r.id with
  | none =>
    simp only [hfind] at h
    cases h
  | some d =>
    simp only [hfind] at h
    by_cases hst : d.status = "signed"
    · rw [if_pos hst] at h
      cases h
    · rw [if_neg hst] at h
      repeat' split at h
      all_goals cases h
      all_goals exact ⟨d, _, rfl, hst, rfl⟩

/-- Replacing the row of one id leaves lookups of any other id unchanged. -/
theorem findDoc_updateDoc_ne : ∀ (db : List DbDoc) (i j : ℕ) (d' : DbDoc),
    d'.id = i → j ≠ i → findDoc (updateDoc db i d') j = findDoc db j
  | [], _, _, _, _, _ => rfl
  | d :: ds, i, j, d', hid, hij => by
    unfold updateDoc
    by_cases h : d.id = i
    · rw [if_pos h]
      unfold findDoc
      simp only [List.find?]
      have h1 : decide (d'.id = j) = false := by
        simp only [decide_eq_false_iff_not]
        omega
      have h2 : decide (d.id = j) = false := by
        simp only [decide_eq_false_iff_not]
        omega
      rw [h1, h2]
    · rw [if_neg h]
      unfold findDoc
      simp only [List.find?]
      cases hd : decide (d.id = j) with
      | true => rfl
      | false => exact findDoc_updateDoc_ne ds i j d' hid hij

/-- Dropping an already-signed document's request from a batch does not change
the other documents' outcomes: the success list is identical and the failure
list only loses that document's `Already signed` entry. -/
theorem bulkLoop_signed_skip (env : SignEnv) (sqrtFn : ℚ → ℚ) (rng : ℚ × ℚ)
    (autoMode : Bool) (sigBytes : List ℕ) (signerName docUuid clientIp : String)
    (now : Time) (rB : BulkReqDoc) (fname : String) (l2 : List BulkReqDoc) :
    ∀ (l1 : List BulkReqDoc) (db : List DbDoc) (dB : DbDoc),
      findDoc db rB.id = some dB → dB.status = "signed" → dB.filename = fname →
      (bulkLoop env sqrtFn rng autoMode sigBytes signerName docUuid clientIp now db
          (l1 ++ rB :: l2)).1 =
        (bulkLoop env sqrtFn rng autoMode sigBytes signerName docUuid clientIp now db
          (l1 ++ l2)).1 ∧
      ((bulkLoop env sqrtFn rng autoMode sigBytes signerName docUuid clientIp now db
          (l1 ++ rB :: l2)).2).Perm
        (⟨rB.id, some fname, "Already signed"⟩ ::
          (bulkLoop env sqrtFn rng autoMode sigBytes signerName docUuid clientIp now db
            (l1 ++ l2)).2)
  | [], db, dB, hfind, hst, hfn => by
    subst hfn
    have hs := bulkStep_signed env sqrtFn rng autoMode sigBytes signerName docUuid
      clientIp now db rB dB hfind hst
    simp only [List.nil_append]
    rw [bulkLoop_cons, hs]
    exact ⟨rfl, List.Perm.refl _⟩
  | r :: l1, db, dB, hfind, hst, hfn => by
    simp only [List.cons_append]
    unfold bulkLoop
    cases hstep : bulkStep env sqrtFn rng autoMode sigBytes signerName docUuid clientIp
        now db r with
    | notFound =>
      obtain ⟨h1, h2⟩ := bulkLoop_signed_skip env sqrtFn rng autoMode sigBytes signerName
        docUuid clientIp now rB fname l2 l1 db dB hfind hst hfn
      exact ⟨h1, (h2.cons _).trans (List.Perm.swap _ _ _)⟩
    | failed fn msg =>
      obtain ⟨h1, h2⟩ := bulkLoop_signed_skip env sqrtFn rng autoMode sigBytes signerName
        docUuid clientIp now rB fname l2 l1 db dB hfind hst hfn
      exact ⟨h1, (h2.cons _).trans (List.Perm.swap _ _ _)⟩
    | ok fn n isF2f db' =>
      obtain ⟨d, out, hfind', hst', hdb'⟩ := bulkStep_ok_inv env sqrtFn rng autoMode
        sigBytes signerName docUuid clientIp now db r fn n isF2f db' hstep
      have hne : rB.id ≠ r.id := by
        intro he
        rw [← he] at hfind'
        rw [hfind] at hfind'
        cases hfind'
        exact hst' hst
      have hdid : d.id = r.id := by
        simpa using List.find?_some hfind'
      have hfind2 : findDoc db' rB.id = some dB := by
        rw [hdb']
        exact (findDoc_updateDoc_ne db r.id rB.id
          { d with status := "signed", signedPdf := some out } hdid hne).trans hfind
      obtain ⟨h1, h2⟩ := bulkLoop_signed_skip env sqrtFn rng autoMode sigBytes signerName
        docUuid clientIp now rB fname l2 l1 db' dB hfind2 hst hfn
      refine ⟨?_, h2⟩
      simp only [h1]

/-- **C6**: a sign request on an already-signed document is rejected before any
compositing work (the single-document endpoint errors with the database
untouched), and in a batch that document lands only in the failed list with
error `Already signed` while every other document's outcome is exactly what it
would have been without it. -/
theorem c6_already_signed_isolated (env : SignEnv) (sqrtFn : ℚ → ℚ) (rng : ℚ × ℚ)
    (autoMode : Bool) (sigBytes : List ℕ) (signerName docUuid clientIp : String)
    (now : Time) (db : List DbDoc) (l1 l2 : List BulkReqDoc) (rB : BulkReqDoc)
    (dB : DbDoc) (sig : Option SigRecord) (userName : String) (req : SignReq)
    (hfind : findDoc db rB.id = some dB)
    (hst : dB.status = "signed") :
    sign_document env db rB.id sig userName req docUuid clientIp now =
      (.error "Document already signed", db) ∧
    (bulkLoop env sqrtFn rng autoMode sigBytes signerName docUuid clientIp now db
        (l1 ++ rB :: l2)).1 =
      (bulkLoop env sqrtFn rng autoMode sigBytes signerName docUuid clientIp now db
        (l1 ++ l2)).1 ∧
    ((bulkLoop env sqrtFn rng autoMode sigBytes signerName docUuid clientIp now db
        (l1 ++ rB :: l2)).2).Perm
      (⟨rB.id, some dB.filename, "Already signed"⟩ ::
        (bulkLoop env sqrtFn rng autoMode sigBytes signerName docUuid clientIp now db
          (l1 ++ l2)).2) := by
  refine ⟨?_, bulkLoop_signed_skip env sqrtFn rng autoMode sigBytes signerName docUuid
    clientIp now rB dB.filename l2 l1 db dB hfind hst rfl⟩
  unfold sign_document
  simp only [hfind]
  rw [if_pos hst]

/-- The three-document batch database of the C6 witness: documents 1 and 3 are
pending, document 2 is already signed. -/
def db3 : List DbDoc := [dbDocA, dbDocB, dbDocC]

/-- Bulk request for document 1. -/
def reqA : BulkReqDoc := ⟨1, [mpos0], none⟩

/-- Bulk request for the already-signed document 2. -/
def reqB : BulkReqDoc := ⟨2, [mpos0], none⟩

/-- Bulk request for document 3. -/
def reqC : BulkReqDoc := ⟨3, [mpos0], none⟩

/-- Witness for C6 at the three-document batch of the spec scenario. -/
theorem c6_witness :
    sign_document env0 db3 2 (some sigRec0) "U" ⟨some mpos0, none⟩ "u" "ip" 3 =
      (.error "Document already signed", db3) ∧
    (bulkLoop env0 (fun q => q) (0, 0) false [5] "Dr A" "u" "ip" 3 db3
        ([reqA] ++ reqB :: [reqC])).1 =
      (bulkLoop env0 (fun q => q) (0, 0) false [5] "Dr A" "u" "ip" 3 db3
        ([reqA] ++ [reqC])).1 ∧
    ((bulkLoop env0 (fun q => q) (0, 0) false [5] "Dr A" "u" "ip" 3 db3
        ([reqA] ++ reqB :: [reqC])).2).Perm
      (⟨2, some "b.pdf", "Already signed"⟩ ::
        (bulkLoop env0 (fun q => q) (0, 0) false [5] "Dr A" "u" "ip" 3 db3
          ([reqA] ++ [reqC])).2) :=
  c6_already_signed_isolated env0 (fun q => q) (0, 0) false [5] "Dr A" "u" "ip" 3 db3
    [reqA] [reqC] reqB dbDocB (some sigRec0) "U" ⟨some mpos0, none⟩
    (by with_unfolding_all decide) (by with_unfolding_all decide)

/-- Witness for C3 (amended) at a one-page empty US-letter document. -/
theorem c3_witness :
    pageMatchesKeyword bigPage.text = false ∧
    detect_all_signature_positions (fun q => q) [bigPage] =
      ⟨true, [⟨0, 10, 712, SIG_WIDTH, SIG_HEIGHT, "low", "blank_space_fallback", none⟩],
        1⟩ := by
  refine ⟨by with_unfolding_all decide, ?_⟩
  have h := c3_no_keyword_generic_fallback (fun q => q) [bigPage] bigPage (some (10, 712))
    (by with_unfolding_all decide) (by with_unfolding_all decide) (by with_unfolding_all decide)
  simpa using h

end DocSign
